import Mathlib

/-!
# Verification of the standuphub filter → attribute → aggregate → score → rank pipeline

Shallow embedding of `scripts/fetch.py` (rule engine) and `scripts/rate.py`
(exception filter, performer attributor, aggregator, scorer, ranker), with the
stage order of `scripts/run_pipeline.py` (fetch, then rate).

Python strings are modelled as Lean `String`/`List Char`; Python ints as `ℤ`;
Python floats as `ℚ` where the code only does rational arithmetic (smoothing,
sort keys) and as `ℝ` where it takes logarithms (the scorer).
-/

namespace StandupHub

/-! ## Character and string helpers (Python `str` operations) -/

/-- Models Python `str.casefold`/`re.IGNORECASE` folding for the character
ranges this repository actually processes: ASCII letters and Cyrillic
(А..Я → а..я, Ѐ..Џ → ѐ..џ, Ґ → ґ).  Other characters are untouched. -/
def foldChar (c : Char) : Char :=
  if 'A' ≤ c ∧ c ≤ 'Z' then Char.ofNat (c.toNat + 32)
  else if 0x410 ≤ c.toNat ∧ c.toNat ≤ 0x42F then Char.ofNat (c.toNat + 32)
  else if 0x400 ≤ c.toNat ∧ c.toNat ≤ 0x40F then Char.ofNat (c.toNat + 80)
  else if c.toNat = 0x490 then Char.ofNat 0x491
  else c

/-- Casefold a character list. -/
def foldList (cs : List Char) : List Char := cs.map foldChar

/-- Casefold a string (models `str.casefold()` on the repository's data). -/
def casefoldStr (s : String) : String := ⟨foldList s.data⟩

/-- Python `needle in haystack` substring test (empty needle matches). -/
def containsSub (needle hay : List Char) : Bool :=
  (List.range (hay.length + 1)).any fun i =>
    (hay.drop i).take needle.length == needle

/-- Models `normalize_spaces` (rate.py): collapse whitespace runs to a single space.
The boolean argument records whether the previous character was whitespace. -/
def collapseSpacesAux : Bool → List Char → List Char
  | _, [] => []
  | prevWs, c :: cs =>
    if c.isWhitespace then
      if prevWs then collapseSpacesAux true cs
      else ' ' :: collapseSpacesAux true cs
    else c :: collapseSpacesAux false cs

/-- Strip leading and trailing whitespace of a character list. -/
def trimList (cs : List Char) : List Char :=
  ((cs.dropWhile Char.isWhitespace).reverse.dropWhile Char.isWhitespace).reverse

/-- Models `normalize_spaces` (rate.py): `re.sub(r"\s+", " ", s).strip()`. -/
def normalizeSpaces (cs : List Char) : List Char :=
  trimList (collapseSpacesAux false cs)

/-- String-level `normalize_spaces`. -/
def normStr (s : String) : String := ⟨normalizeSpaces s.data⟩

/-- Python `str.strip()` (kernel-reducible replacement for `String.trim`). -/
def trimStr (s : String) : String := ⟨trimList s.data⟩

/-- Python `s.startswith(p)` on character lists. -/
def startsWithLit (s p : String) : Bool := p.data.isPrefixOf s.data

/-- Python `s.split(sep)` for a one-character separator: accumulate the
current field (reversed) and emit it at each separator. -/
def splitCharAux (sep : Char) : List Char → List Char → List (List Char)
  | acc, [] => [acc.reverse]
  | acc, c :: cs =>
    if c = sep then acc.reverse :: splitCharAux sep [] cs
    else splitCharAux sep (c :: acc) cs

/-- Python `s.split(sep)` for a one-character separator. -/
def splitChar (sep : Char) (s : String) : List String :=
  (splitCharAux sep [] s.data).map List.asString

/-! ## Performer alias matching (rate.py: `load_performers`,
    `match_performers_in_title`) -/

/-- Python `\w` (with `re.UNICODE`) restricted to the scripts this repository
processes: ASCII alphanumerics, underscore, and the Cyrillic block. -/
def isWordChar (c : Char) : Bool :=
  c.isAlphanum || c == '_' || (0x400 ≤ c.toNat && c.toNat ≤ 0x4FF)

/-- Is the character at index `j` of `t` a word character (false past the
ends, which count as boundaries)?  Used for the `(?<!\w)` / `(?!\w)`
lookarounds of the compiled alias patterns. -/
def wordCharAt (t : List Char) (j : Nat) : Bool :=
  match t[j]? with
  | some c => isWordChar c
  | none => false

/-- Does alias `a` match `t` at position `i`, case-insensitively and with
non-word (lookaround) boundaries on both sides — the semantics of
`re.compile(rf"(?<!\w){re.escape(a)}(?!\w)", re.IGNORECASE | re.UNICODE)`
matching at position `i`? -/
def matchesAliasAt (a t : List Char) (i : Nat) : Bool :=
  decide (i + a.length ≤ t.length)
    && foldList ((t.drop i).take a.length) == foldList a
    && (decide (i = 0) || !wordCharAt t (i - 1))
    && !wordCharAt t (i + a.length)

/-- Models `rx.search(t)` for a compiled alias pattern: some position matches. -/
def aliasMatches (a t : List Char) : Bool :=
  (List.range (t.length + 1)).any fun i => matchesAliasAt a t i

/-- Models `match_performers_in_title` (rate.py): normalize the title's whitespace,
then collect the canonical names whose aliases match.  The Python version
returns a `set`; we return the list of canonical names in alias-table order
with duplicates removed (first occurrence kept). -/
def matchPerformersInTitle (title : String) (compiled : List (String × String)) :
    List String :=
  let t := normalizeSpaces title.data
  ((compiled.filter fun p => aliasMatches p.2.data t).map Prod.fst).dedup

/-! ### `load_performers` (rate.py) -/

/-- Insert into a Python-`dict`-like association list: overwriting keeps the
key's original position, a new key is appended. -/
def dictInsert (d : List (String × List String)) (k : String) (v : List String) :
    List (String × List String) :=
  if d.any fun p => p.1 == k then
    d.map fun p => if p.1 == k then (k, v) else p
  else d ++ [(k, v)]

/-- The per-line alias dedup loop of `load_performers`: normalize each alias,
skip empties, and deduplicate case-insensitively (first form kept). -/
def dedupAliases (todo : List String) : List String :=
  (todo.foldl
    (fun (acc : List String × List String) a0 =>
      let a := normStr a0
      if a = "" then acc
      else
        let key := casefoldStr a
        if key ∈ acc.2 then acc else (acc.1 ++ [a], acc.2 ++ [key]))
    ([], [])).1

/-- One line of `performers.txt`: split on `|`, normalize the parts, drop
empties; the first part is the canonical name. -/
def parsePerformerLine (d : List (String × List String)) (line : String) :
    List (String × List String) :=
  let stripped := trimStr line
  if stripped = "" ∨ startsWithLit stripped "#" then d
  else
    let parts := ((splitChar '|' line).map normStr).filter fun p => p ≠ ""
    match parts with
    | [] => d
    | canonical :: restParts =>
        dictInsert d canonical (dedupAliases (canonical :: restParts))

/-- Models `load_performers` (rate.py): the canonical → aliases table and the flat
compiled list of (canonical, alias-pattern) pairs, in table order. -/
def loadPerformers (lines : List String) :
    List (String × List String) × List (String × String) :=
  let d := lines.foldl parsePerformerLine []
  let compiled := d.flatMap fun p =>
    (p.2.filter fun a => trimStr a ≠ "").map fun a => (p.1, trimStr a)
  (d, compiled)

/-! ## fetch.py: data model and rule engine -/

/-- Models `Video` (fetch.py).  `published_at` is a UTC epoch-seconds timestamp
(the Python code holds a timezone-aware `datetime`; comparisons against the
cutoff are order-isomorphic to epoch seconds).  Missing statistics are
`none`, as in the Python `Optional[int]` fields. -/
structure Video where
  video_id : String
  url : String
  channel_id : String
  channel_title : String
  title : String
  published_at : ℤ
  duration_sec : ℤ
  view_count : Option ℤ
  like_count : Option ℤ
  comment_count : Option ℤ
deriving DecidableEq, Repr

/-- Models `CUTOFF_DATE = datetime(2022, 2, 24, tzinfo=utc)` as epoch seconds. -/
def CUTOFF_DATE : ℤ := 1645660800

/-- Models `MIN_SEC = 4 * 60`. -/
def MIN_SEC : ℤ := 240

/-- Models `MAX_SEC = 2 * 60 * 60`. -/
def MAX_SEC : ℤ := 7200

/-- Models `STANDUP_KEYWORDS` (fetch.py). -/
def STANDUP_KEYWORDS : List String := ["стендап", "stand up", "standup"]

/-- Models `BANNED_TITLE_PHRASES` (fetch.py). -/
def BANNED_TITLE_PHRASES : List String :=
  ["я знаю де ти живеш", "МЕДИЧНІ ІСТОРІЇ", "КРАУД-ВОРК", "ВЛОГ"]

/-- A rule: `(passed, reason_if_failed)`, the `Rule` type alias of fetch.py. -/
abbrev Rule := Video → Bool × String

/-- Models `rule_after_cutoff`. -/
def rule_after_cutoff (v : Video) : Bool × String :=
  if v.published_at ≥ CUTOFF_DATE then (true, "") else (false, "before_2022_02_24")

/-- Models `rule_min_duration` (reason string is `f"too_short_<=_{MIN_SEC}s"`). -/
def rule_min_duration (v : Video) : Bool × String :=
  if v.duration_sec > MIN_SEC then (true, "") else (false, "too_short_<=_240s")

/-- Models `rule_max_duration` (reason string is `f"too_long_>=_{MAX_SEC}s"`). -/
def rule_max_duration (v : Video) : Bool × String :=
  if v.duration_sec < MAX_SEC then (true, "") else (false, "too_long_>=_7200s")

/-- The channel-exception table `CHANNEL_EXCEPTIONS`, loaded from
`channel_exceptions.txt` at module scope; modelled as an explicit
channel-id → flag-set association list threaded into the rule. -/
def hasChannelFlag (ce : List (String × List String)) (cid flag : String) : Bool :=
  ce.any fun p => p.1 == cid && p.2.any (fun f => f == flag)

/-- Models `rule_title_has_standup`: auto-pass for channels carrying the
`allow_without_standup_keyword` flag, else require a stand-up keyword in the
casefolded title. -/
def rule_title_has_standup (ce : List (String × List String)) (v : Video) :
    Bool × String :=
  if v.channel_id ≠ "" ∧
      hasChannelFlag ce v.channel_id "allow_without_standup_keyword" = true then
    (true, "channel_exception:standup_keyword")
  else if STANDUP_KEYWORDS.any fun kw => containsSub kw.data (foldList v.title.data) then
    (true, "")
  else (false, "no_standup_keyword")

/-- Models `RE_TITLE_PODCAST.search(title)`: the pattern is an alternation of
literals, so a match is a case-insensitive substring occurrence. -/
def titleHasPodcastTopic (title : String) : Bool :=
  ["подкаст", "підкаст", "podcast"].any fun w => containsSub w.data (foldList title.data)

/-- Models `RE_TITLE_IMPROV.search(title)`: the trailing `\w*` of each alternative
never affects whether a match exists, so this is a substring occurrence. -/
def titleHasImprovTopic (title : String) : Bool :=
  ["імпровізаці", "improv"].any fun w => containsSub w.data (foldList title.data)

/-- Models `RE_TITLE_ROZGONY.search(title)`. -/
def titleHasRozgonyTopic (title : String) : Bool :=
  ["розгони", "загони"].any fun w => containsSub w.data (foldList title.data)

/-- Models `RE_TITLE_HVYLYNA.search(title)`. -/
def titleHasHvylynaTopic (title : String) : Bool :=
  ["хвилина", "уваги"].any fun w => containsSub w.data (foldList title.data)

/-- Models `rule_title_not_podcast`. -/
def rule_title_not_podcast (v : Video) : Bool × String :=
  if titleHasPodcastTopic v.title then (false, "title_has_podcast") else (true, "")

/-- Models `rule_title_not_improv`. -/
def rule_title_not_improv (v : Video) : Bool × String :=
  if titleHasImprovTopic v.title then (false, "title_has_improv") else (true, "")

/-- Models `rule_title_not_rozgony`. -/
def rule_title_not_rozgony (v : Video) : Bool × String :=
  if titleHasRozgonyTopic v.title then (false, "title_has_rozgony") else (true, "")

/-- Models `rule_title_not_hvylyna`. -/
def rule_title_not_hvylyna (v : Video) : Bool × String :=
  if titleHasHvylynaTopic v.title then (false, "title_has_hvylyna") else (true, "")

/-- Models `rule_no_banned_phrases`: the first banned phrase whose casefold occurs in
the casefolded title determines the reason. -/
def rule_no_banned_phrases (v : Video) : Bool × String :=
  match BANNED_TITLE_PHRASES.find? fun ph =>
      containsSub (foldList ph.data) (foldList v.title.data) with
  | some ph => (false, "banned_phrase:" ++ ph)
  | none => (true, "")

/-- Models `RULES` (fetch.py), in declared order. -/
def RULES (ce : List (String × List String)) : List Rule :=
  [rule_after_cutoff, rule_min_duration, rule_max_duration,
   rule_title_has_standup ce, rule_title_not_podcast, rule_title_not_improv,
   rule_title_not_rozgony, rule_title_not_hvylyna, rule_no_banned_phrases]

/-- Models `apply_rules` (fetch.py): first failing rule short-circuits with a
singleton reason list; if every rule passes, `(True, [])`. -/
def apply_rules (v : Video) : List Rule → Bool × List String
  | [] => (true, [])
  | r :: rs =>
    let res := r v
    if res.1 then apply_rules v rs else (false, [res.2])

/-- The accept/reject loop of fetch.py's `main`: every video goes to the
accepted list or to the rejected list with `reject_reason = ";".join(reasons)`,
in input order. -/
def fetchPartition (ce : List (String × List String)) :
    List Video → List Video × List (Video × String)
  | [] => ([], [])
  | v :: rest =>
    let p := fetchPartition ce rest
    let res := apply_rules v (RULES ce)
    if res.1 then (v :: p.1, p.2)
    else (p.1, (v, String.intercalate ";" res.2) :: p.2)

/-! ## rate.py: parsing helpers -/

/-- Decimal digits to a natural number. -/
def digitsToNat (ds : List Char) : ℕ :=
  ds.foldl (fun n c => 10 * n + (c.toNat - 48)) 0

/-- The absolute-value part of `int(float(s))` for a plain decimal literal
`digits[.digits]`; anything else (exponents, `inf`, garbage) yields the
policy default 0, as `parse_int`'s `except` clause does.  `int(float(·))`
truncates toward zero, so the fractional digits are discarded. -/
def parseAbsDec (cs : List Char) : ℤ :=
  let intPart := cs.takeWhile Char.isDigit
  let rest := cs.dropWhile Char.isDigit
  if intPart = [] then 0
  else
    match rest with
    | [] => (digitsToNat intPart : ℤ)
    | '.' :: frac => if frac.all Char.isDigit then (digitsToNat intPart : ℤ) else 0
    | _ => 0

/-- Models `parse_int` (rate.py): strip, remove inner spaces, `int(float(s))`, with
0 as the default for empty or unparseable input. -/
def parse_int (s : String) : ℤ :=
  let t := (trimList s.data).filter fun c => c ≠ ' '
  match t with
  | '-' :: rest => -(parseAbsDec rest)
  | '+' :: rest => parseAbsDec rest
  | rest => parseAbsDec rest

/-- The character class `[A-Za-z0-9_-]` of the video-id patterns. -/
def isIdChar (c : Char) : Bool := c.isAlphanum || c == '_' || c == '-'

/-- At a position of the url, try the `(?:v=|/shorts/|youtu\.be/)`
alternation (the alternatives start with distinct characters, so at most one
applies); return the remainder after the matched literal. -/
def matchIdMarker (t : List Char) : Option (List Char) :=
  if "v=".data.isPrefixOf t then some (t.drop 2)
  else if "/shorts/".data.isPrefixOf t then some (t.drop 8)
  else if "youtu.be/".data.isPrefixOf t then some (t.drop 9)
  else none

/-- Models `_YT_ID_RE.search`: scan left to right; at the first marker followed by
at least 11 id characters, capture exactly 11. -/
def ytIdSearch : List Char → Option (List Char)
  | [] => none
  | t@(_ :: rest) =>
    match matchIdMarker t with
    | some rem =>
        if 11 ≤ (rem.takeWhile isIdChar).length then some (rem.take 11)
        else ytIdSearch rest
    | none => ytIdSearch rest

/-- Models `extract_video_id` (rate.py): a bare 11-character id is returned as-is,
else search the url for a marker followed by an 11-character id. -/
def extract_video_id (s0 : String) : Option String :=
  let s := trimList s0.data
  if s = [] then none
  else if s.length = 11 ∧ s.all isIdChar then some ⟨s⟩
  else (ytIdSearch s).map fun cs => ⟨cs⟩

/-- Parse one optional `(\d+)U` component of the ISO-8601 duration pattern:
on success return the value and the remainder, else leave the input alone. -/
def tryDurComp (cs : List Char) (u : Char) : ℕ × List Char :=
  let ds := cs.takeWhile Char.isDigit
  let rest := cs.dropWhile Char.isDigit
  match rest with
  | c :: tail => if ds ≠ [] ∧ c = u then (digitsToNat ds, tail) else (0, cs)
  | [] => (0, cs)

/-- Models `parse_duration_iso8601` (rate.py): full match of
`PT(?:(\d+)H)?(?:(\d+)M)?(?:(\d+)S)?` after stripping, else 0. -/
def parse_duration_iso8601 (s : String) : ℤ :=
  match trimList s.data with
  | 'P' :: 'T' :: rest =>
    let h := tryDurComp rest 'H'
    let m := tryDurComp h.2 'M'
    let sec := tryDurComp m.2 'S'
    if sec.2 = [] then (h.1 * 3600 + m.1 * 60 + sec.1 : ℕ) else 0
  | _ => 0

/-! ## rate.py: data model and CSV loading -/

/-- Models `VideoRow` (rate.py).  `published_at` is carried through as an opaque
string (rate.py never interprets it). -/
structure VideoRow where
  video_id : String
  url : String
  title : String
  view_count : ℤ
  like_count : ℤ
  duration_sec : ℤ
  published_at : String
  channel_id : String
  channel_title : String
deriving DecidableEq, Repr

/-- A CSV row from `csv.DictReader`: header-name → cell association list.
`r.get(k)` is `none` when the column is absent. -/
def rowGet (r : List (String × String)) (k : String) : Option String :=
  (r.find? fun p => p.1 == k).map Prod.snd

/-- A chain `a or b or ... or ""` of Python truthiness: the first cell that is
present and non-empty, else `""`. -/
def firstTruthy : List (Option String) → String
  | [] => ""
  | none :: rest => firstTruthy rest
  | some s :: rest => if s = "" then firstTruthy rest else s

/-- The per-row body of `read_videos_csv` (rate.py): tolerant column-name
resolution, id recovery from the url, and the skip (`continue`) when no
video id can be determined — in which case the row is dropped entirely. -/
def readRow (r : List (String × String)) : Option VideoRow :=
  let url0 := trimStr (firstTruthy [rowGet r "url", rowGet r "video_url"])
  let vid0 := trimStr (firstTruthy [rowGet r "video_id", rowGet r "id"])
  let vid := if vid0 = "" then ((extract_video_id url0).getD "") else vid0
  let url := if url0 = "" ∧ vid ≠ "" then "https://www.youtube.com/watch?v=" ++ vid
             else url0
  let views := parse_int (firstTruthy
    [rowGet r "view_count", rowGet r "views", rowGet r "viewCount", rowGet r "viewcount"])
  let likes := parse_int (firstTruthy
    [rowGet r "like_count", rowGet r "likes", rowGet r "likeCount", rowGet r "likecount"])
  let dur0 := parse_int (firstTruthy
    [rowGet r "duration_sec", rowGet r "duration_seconds",
     rowGet r "length_seconds", rowGet r "lengthSeconds"])
  let durationSec :=
    if dur0 = 0 then
      let iso := trimStr (firstTruthy [rowGet r "duration", rowGet r "contentDetails.duration"])
      if startsWithLit iso "PT" then parse_duration_iso8601 iso else 0
    else dur0
  if vid = "" then none
  else some
    { video_id := vid
      url := url
      title := trimStr (firstTruthy [rowGet r "title"])
      view_count := views
      like_count := likes
      duration_sec := durationSec
      published_at := trimStr (firstTruthy
        [rowGet r "published_at", rowGet r "published", rowGet r "publishedAt"])
      channel_id := trimStr (firstTruthy [rowGet r "channel_id", rowGet r "channelId"])
      channel_title := trimStr (firstTruthy [rowGet r "channel_title", rowGet r "channelTitle"]) }

/-- Models `read_videos_csv` (rate.py), over already-split CSV rows. -/
def read_videos_csv (rows : List (List (String × String))) : List VideoRow :=
  rows.filterMap readRow

/-! ## rate.py: exception filter, attribution, per-record classification -/

/-- Lexicographic (code-point) `≤` on character lists — Python string order. -/
def lexLeB : List Char → List Char → Bool
  | [], _ => true
  | _ :: _, [] => false
  | a :: as, b :: bs =>
    if a.toNat < b.toNat then true
    else if b.toNat < a.toNat then false
    else lexLeB as bs

/-- Python `sorted` on strings: stable insertion sort under code-point order
(any two stable sorts for the same total preorder agree). -/
def sortStrings (l : List String) : List String :=
  List.insertionSort (fun a b => lexLeB a.data b.data = true) l

/-- Where a record of the rating stage ends up: the clean output with its
attributed performer, or the dropped output with a reason (and for
multi-match drops, the sorted matched performer set). -/
inductive RateOutcome where
  | clean (performer : String)
  | dropped (reason : String) (matched : Option (List String))
deriving DecidableEq, Repr

/-- The per-record body of rate.py's `main` loop: the exception filter first
(by id or exact url line), then attribution by match cardinality.
For a singleton match Python takes `next(iter(matched))`, i.e. its only
element. -/
def rateClassify (ids urls : List String) (compiled : List (String × String))
    (v : VideoRow) : RateOutcome :=
  if v.video_id ∈ ids ∨ v.url ∈ urls then .dropped "exception" none
  else
    let matched := matchPerformersInTitle v.title compiled
    if matched.length = 0 then .dropped "no_performer_in_title" none
    else if 1 < matched.length then
      .dropped "multiple_performers_in_title" (some (sortStrings matched))
    else .clean (matched.headD "")

/-- A row of `videos_clean.csv`: the attributed performer plus the original
record (derived display fields omitted). -/
structure CleanRow where
  performer : String
  video : VideoRow
deriving DecidableEq, Repr

/-- A row of `videos_dropped.csv`: the original record, the drop reason, and
the sorted matched set for multi-match drops. -/
structure DroppedRow where
  video : VideoRow
  drop_reason : String
  matched_performers : Option (List String)
deriving DecidableEq, Repr

/-- rate.py's `main` loop over all videos: build the clean and dropped lists
in input order. -/
def rateProcess (ids urls : List String) (compiled : List (String × String)) :
    List VideoRow → List CleanRow × List DroppedRow
  | [] => ([], [])
  | v :: rest =>
    let p := rateProcess ids urls compiled rest
    match rateClassify ids urls compiled v with
    | .clean performer => (⟨performer, v⟩ :: p.1, p.2)
    | .dropped reason m => (p.1, ⟨v, reason, m⟩ :: p.2)

/-! ## rate.py: aggregation and engagement smoothing

The aggregation loop fills `per_views`/`per_minutes`/`per_likes` incrementally
over the clean rows; that is equivalent to filtering the clean list by
performer, which is how we express the per-performer aggregates. -/

/-- The clean videos attributed to performer `p`, in clean order. -/
def perfVideos (clean : List CleanRow) (p : String) : List VideoRow :=
  (clean.filter fun c => c.performer == p).map CleanRow.video

/-- Models `total_views = sum(views_list)`. -/
def total_views_of (clean : List CleanRow) (p : String) : ℤ :=
  ((perfVideos clean p).map VideoRow.view_count).sum

/-- Models `max(views_list) if views_list else 0`. -/
def listMaxZ : List ℤ → ℤ
  | [] => 0
  | [x] => x
  | x :: y :: xs => max x (listMaxZ (y :: xs))

/-- Models `peak_views`. -/
def peak_views_of (clean : List CleanRow) (p : String) : ℤ :=
  listMaxZ ((perfVideos clean p).map VideoRow.view_count)

/-- Models `video_count = len(views_list)`. -/
def video_count_of (clean : List CleanRow) (p : String) : ℤ :=
  ((perfVideos clean p).length : ℤ)

/-- Models `per_minutes` accumulation: `v.duration_sec / 60.0 if v.duration_sec else 0.0`. -/
def total_minutes_of (clean : List CleanRow) (p : String) : ℚ :=
  ((perfVideos clean p).map fun v =>
    if v.duration_sec = 0 then (0 : ℚ) else (v.duration_sec : ℚ) / 60).sum

/-- Models `per_likes` accumulation. -/
def total_likes_of (clean : List CleanRow) (p : String) : ℤ :=
  ((perfVideos clean p).map VideoRow.like_count).sum

/-- Models `global_views`: total attributed views. -/
def global_views (clean : List CleanRow) : ℤ :=
  (clean.map fun c => c.video.view_count).sum

/-- Models `global_likes`: total attributed likes. -/
def global_likes (clean : List CleanRow) : ℤ :=
  (clean.map fun c => c.video.like_count).sum

/-- Models `SMOOTH_M_VIEWS = 50_000`. -/
def SMOOTH_M_VIEWS : ℤ := 50000

/-- Models `p0 = (global_likes / global_views) if global_views > 0 else 0.0`.
Python float division of ints is exact rational division for these claims. -/
def p0 (gl gv : ℤ) : ℚ := if 0 < gv then (gl : ℚ) / (gv : ℚ) else 0

/-- Models `like_rate = (total_likes / total_views) if total_views > 0 else 0.0`. -/
def like_rate (tl tv : ℤ) : ℚ := if 0 < tv then (tl : ℚ) / (tv : ℚ) else 0

/-- Models `like_rate_smooth = ((total_likes + M*p0) / (total_views + M)) if
(total_views + M) > 0 else 0.0`. -/
def like_rate_smooth (tl tv : ℤ) (prior : ℚ) : ℚ :=
  if 0 < (tv : ℚ) + (SMOOTH_M_VIEWS : ℚ) then
    ((tl : ℚ) + (SMOOTH_M_VIEWS : ℚ) * prior) / ((tv : ℚ) + (SMOOTH_M_VIEWS : ℚ))
  else 0

/-! ## rate.py: scorer -/

/-- Models `W_TOTAL = 0.45` — catalog impact. -/
def W_TOTAL : ℝ := 0.45

/-- Models `W_PEAK = 0.25` — hit power. -/
def W_PEAK : ℝ := 0.25

/-- Models `W_COUNT = 0.20` — consistency. -/
def W_COUNT : ℝ := 0.20

/-- Models `W_MINUTES = 0.10` — output volume. -/
def W_MINUTES : ℝ := 0.10

/-- Models `math.log1p`. -/
noncomputable def log1p (x : ℝ) : ℝ := Real.log (1 + x)

/-- Models `compute_base_score` (rate.py): weighted sum of `log1p` of the
clamped-at-0 metrics. -/
noncomputable def compute_base_score (total_views peak_views video_count : ℤ)
    (total_minutes : ℝ) : ℝ :=
  W_TOTAL * log1p ((max 0 total_views : ℤ) : ℝ)
    + W_PEAK * log1p ((max 0 peak_views : ℤ) : ℝ)
    + W_COUNT * log1p ((max 0 video_count : ℤ) : ℝ)
    + W_MINUTES * log1p (max 0 total_minutes)

/-! ## rate.py: ranker -/

/-- Models `ENABLE_ENGAGEMENT_MULTIPLIER = False`. -/
def ENABLE_ENGAGEMENT_MULTIPLIER : Bool := false

/-- A row of `rating.csv`.  Every float the ranker touches is a finite IEEE
value, hence a rational number, so the sort keys are modelled in `ℚ`. -/
structure RatingRow where
  performer : String
  score : ℚ
  score_with_engagement : ℚ
  eng_mult : ℚ
  total_views : ℤ
  peak_views : ℤ
  video_count : ℤ
  total_minutes : ℚ
  total_likes : ℤ
  like_rate_pct : ℚ
  like_rate_smooth_pct : ℚ
deriving DecidableEq, Repr

/-- Models `sort_key = "score_with_engagement" if ENABLE_ENGAGEMENT_MULTIPLIER else
"score"`. -/
def ratingSortKey (flag : Bool) (r : RatingRow) : ℚ :=
  if flag then r.score_with_engagement else r.score

/-- Models `rating_rows.sort(key=..., reverse=True)` followed by
`r["rank"] = i` for `i` in `1..N`: a stable descending sort (insertion sort
produces the same list as any stable sort for the same preorder), zipped with
the 1-based positions. -/
def rankRows (flag : Bool) (rows : List RatingRow) : List (RatingRow × ℕ) :=
  let s := List.insertionSort (fun a b => ratingSortKey flag b ≤ ratingSortKey flag a) rows
  s.zip (List.range' 1 s.length)

/-! ## run_pipeline.py: fetch stage, then rate stage -/

/-- The CSV hand-off from fetch.py to rate.py: fetch writes the accepted
record's fields, and `read_videos_csv` reads them back.  Missing statistics
become empty cells, which `parse_int` turns into 0; `published_at` is
serialized (rate.py never interprets it, so the decimal rendering of the
epoch stands in for `isoformat()`). -/
def videoToRow (v : Video) : VideoRow :=
  { video_id := v.video_id
    url := v.url
    title := v.title
    view_count := v.view_count.getD 0
    like_count := v.like_count.getD 0
    duration_sec := v.duration_sec
    published_at := toString v.published_at
    channel_id := v.channel_id
    channel_title := v.channel_title }

/-- The whole pipeline in `run_pipeline.py` order: fetch.py's rule engine
partitions the raw videos (its rejected rows keep their rule reason); the
accepted rows are sorted by publish time descending and handed to rate.py,
whose loop applies the exception filter and the attributor.  Returns
(clean, dropped-in-rate, rejected-in-fetch). -/
def pipeline (ce : List (String × List String)) (ids urls : List String)
    (compiled : List (String × String)) (vs : List Video) :
    List CleanRow × List DroppedRow × List (Video × String) :=
  let fp := fetchPartition ce vs
  let acc := List.insertionSort (fun a b : Video => b.published_at ≤ a.published_at) fp.1
  let rp := rateProcess ids urls compiled (acc.map videoToRow)
  (rp.1, rp.2, fp.2)

/-! ## Concrete inputs used to instantiate theorems with hypotheses -/

/-- A record whose title matches the single performer `Ivan`, with zero views
and one like. -/
def vAttr : VideoRow :=
  { video_id := "aaaaaaaaaaa", url := "https://www.youtube.com/watch?v=aaaaaaaaaaa",
    title := "Ivan speaks", view_count := 0, like_count := 1, duration_sec := 300,
    published_at := "2023-01-01T00:00:00+00:00", channel_id := "UCx",
    channel_title := "Ch" }

/-- A raw video published before the cutoff (epoch 0) but listed in the
exclusion set; its title carries a stand-up keyword and its duration is
within bounds, so only the cutoff rule fails. -/
def vExcluded : Video :=
  { video_id := "dQw4w9WgXcQ", url := "https://www.youtube.com/watch?v=dQw4w9WgXcQ",
    channel_id := "UCx", channel_title := "Ch", title := "стендап тест",
    published_at := 0, duration_sec := 600, view_count := some 10,
    like_count := some 1, comment_count := none }

/-- A raw video that passes the cutoff but is 100 seconds long, hence too
short. -/
def vShort : Video := { vExcluded with published_at := 1700000000, duration_sec := 100 }

/-- A rating row with score 1. -/
def rrOne : RatingRow :=
  { performer := "a", score := 1, score_with_engagement := 1, eng_mult := 1,
    total_views := 10, peak_views := 10, video_count := 1, total_minutes := 5,
    total_likes := 1, like_rate_pct := 10, like_rate_smooth_pct := 10 }

/-- A rating row with score 2. -/
def rrTwo : RatingRow := { rrOne with performer := "b", score := 2, score_with_engagement := 2 }

/-- A CSV row with no id columns and a url from which no 11-character id can
be extracted. -/
def rowNoId : List (String × String) :=
  [("url", "https://example.com/page"), ("title", "some title"), ("view_count", "5")]

/-! ## Helper lemmas -/

/-- The exception filter inside `rateClassify`: an excluded record is dropped
as `"exception"` whatever the alias table says. -/
theorem rateClassify_excluded (ids urls : List String)
    (compiled : List (String × String)) (v : VideoRow)
    (h : v.video_id ∈ ids ∨ v.url ∈ urls) :
    rateClassify ids urls compiled v = .dropped "exception" none := by
  simp [rateClassify, h]

/-- Unfolding `rateProcess` over a cons for a clean classification. -/
theorem rateProcess_cons_clean (ids urls : List String)
    (compiled : List (String × String)) (v : VideoRow) (rest : List VideoRow)
    (p : String) (h : rateClassify ids urls compiled v = .clean p) :
    rateProcess ids urls compiled (v :: rest)
      = (⟨p, v⟩ :: (rateProcess ids urls compiled rest).1,
         (rateProcess ids urls compiled rest).2) := by
  simp [rateProcess, h]

/-- Unfolding `rateProcess` over a cons for a dropped classification. -/
theorem rateProcess_cons_dropped (ids urls : List String)
    (compiled : List (String × String)) (v : VideoRow) (rest : List VideoRow)
    (reason : String) (m : Option (List String))
    (h : rateClassify ids urls compiled v = .dropped reason m) :
    rateProcess ids urls compiled (v :: rest)
      = ((rateProcess ids urls compiled rest).1,
         ⟨v, reason, m⟩ :: (rateProcess ids urls compiled rest).2) := by
  simp [rateProcess, h]

/-- Classification of a non-excluded record by match cardinality. -/
theorem rateClassify_not_excluded (ids urls : List String)
    (compiled : List (String × String)) (v : VideoRow)
    (hex : ¬(v.video_id ∈ ids ∨ v.url ∈ urls)) :
    rateClassify ids urls compiled v
      = (let matched := matchPerformersInTitle v.title compiled
         if matched.length = 0 then .dropped "no_performer_in_title" none
         else if 1 < matched.length then
           .dropped "multiple_performers_in_title" (some (sortStrings matched))
         else .clean (matched.headD "")) := by
  simp only [rateClassify, if_neg hex]

/-! ## C1 -/

/-- C1: for a record that reaches attribution, exactly one canonical match
puts it in the clean output attributed to that performer; an empty match set
drops it with reason `"no_performer_in_title"`; two or more matches drop it
with reason `"multiple_performers_in_title"` together with the full matched
set of names. -/
theorem C1_attribution_cardinality (ids urls : List String)
    (compiled : List (String × String)) (v : VideoRow) (rest : List VideoRow)
    (hex : ¬(v.video_id ∈ ids ∨ v.url ∈ urls)) :
    (∀ p, matchPerformersInTitle v.title compiled = [p] →
      rateProcess ids urls compiled (v :: rest)
        = (⟨p, v⟩ :: (rateProcess ids urls compiled rest).1,
           (rateProcess ids urls compiled rest).2))
    ∧ (matchPerformersInTitle v.title compiled = [] →
      rateProcess ids urls compiled (v :: rest)
        = ((rateProcess ids urls compiled rest).1,
           ⟨v, "no_performer_in_title", none⟩
             :: (rateProcess ids urls compiled rest).2))
    ∧ (2 ≤ (matchPerformersInTitle v.title compiled).length →
      rateProcess ids urls compiled (v :: rest)
        = ((rateProcess ids urls compiled rest).1,
           ⟨v, "multiple_performers_in_title",
              some (sortStrings (matchPerformersInTitle v.title compiled))⟩
             :: (rateProcess ids urls compiled rest).2)
      ∧ ∀ n, n ∈ sortStrings (matchPerformersInTitle v.title compiled)
              ↔ n ∈ matchPerformersInTitle v.title compiled) := by
  have hcl := rateClassify_not_excluded ids urls compiled v hex
  refine ⟨?_, ?_, ?_⟩
  · intro p hp
    refine rateProcess_cons_clean ids urls compiled v rest p ?_
    rw [hcl]
    simp [hp]
  · intro hp
    refine rateProcess_cons_dropped ids urls compiled v rest _ _ ?_
    rw [hcl]
    simp [hp]
  · intro hp
    have h0 : ¬ (matchPerformersInTitle v.title compiled).length = 0 := by omega
    have h1 : 1 < (matchPerformersInTitle v.title compiled).length := by omega
    refine ⟨rateProcess_cons_dropped ids urls compiled v rest _ _ ?_, ?_⟩
    · rw [hcl]
      simp [h0, h1]
    · intro n
      exact (List.perm_insertionSort _ (matchPerformersInTitle v.title compiled)).mem_iff

/-- Witness for C1: a record whose title matches exactly the performer
`Ivan` lands in the clean output attributed to `Ivan`. -/
theorem C1_witness :
    rateProcess [] [] (loadPerformers ["Ivan"]).2 [vAttr]
      = ([⟨"Ivan", vAttr⟩], []) := by
  have h := (C1_attribution_cardinality [] [] (loadPerformers ["Ivan"]).2 vAttr []
    (by decide)).1 "Ivan" (by decide)
  simpa using h

/-! ## C2 -/

/-- C2: `apply_rules` evaluates the rules in declared order; whatever comes
after the first failing rule is irrelevant to the result, which is rejection
with exactly that rule's reason code as the only element of the reason list;
if every rule passes, the record is accepted with an empty reason list. -/
theorem C2_apply_rules_short_circuit (v : Video) :
    (∀ (xs : List Rule) (r : Rule) (ys : List Rule),
      (∀ f ∈ xs, (f v).1 = true) → (r v).1 = false →
        apply_rules v (xs ++ r :: ys) = (false, [(r v).2]))
    ∧ (∀ rules : List Rule, (∀ f ∈ rules, (f v).1 = true) →
        apply_rules v rules = (true, [])) := by
  constructor
  · intro xs r ys hxs hr
    induction xs with
    | nil => simp [apply_rules, hr]
    | cons f fs ih =>
      have hf : (f v).1 = true := hxs f (by simp)
      have ih2 := ih fun g hg => hxs g (by simp [hg])
      simpa [apply_rules, hf] using ih2
  · intro rules hall
    induction rules with
    | nil => rfl
    | cons f fs ih =>
      have hf : (f v).1 = true := hall f (by simp)
      have ih2 := ih fun g hg => hall g (by simp [hg])
      simpa [apply_rules, hf] using ih2

/-- Witness for C2: a 100-second video passes the cutoff rule, fails the
minimum-duration rule, and the maximum-duration rule behind it never
matters: the result is rejection with the single reason
`"too_short_<=_240s"`. -/
theorem C2_witness :
    apply_rules vShort [rule_after_cutoff, rule_min_duration, rule_max_duration]
      = (false, ["too_short_<=_240s"]) := by
  have h := (C2_apply_rules_short_circuit vShort).1 [rule_after_cutoff]
    rule_min_duration [rule_max_duration]
    (by intro f hf; simp only [List.mem_singleton] at hf; subst hf; decide)
    (by decide)
  simpa using h

/-! ## C6 -/

/-- The fetch stage's accepted and rejected lists together are a permutation
of the input. -/
theorem fetchPartition_perm (ce : List (String × List String)) (vs : List Video) :
    ((fetchPartition ce vs).1 ++ (fetchPartition ce vs).2.map Prod.fst).Perm vs := by
  induction vs with
  | nil => simp [fetchPartition]
  | cons v rest ih =>
    simp only [fetchPartition]
    by_cases h : (apply_rules v (RULES ce)).1
    · simpa [h] using ih.cons v
    · simp only [h, Bool.false_eq_true, if_false, List.map_cons]
      exact List.perm_middle.trans (ih.cons v)

/-- The rate stage's clean and dropped lists together are a permutation of
the input. -/
theorem rateProcess_perm (ids urls : List String)
    (compiled : List (String × String)) (rs : List VideoRow) :
    ((rateProcess ids urls compiled rs).1.map CleanRow.video
      ++ (rateProcess ids urls compiled rs).2.map DroppedRow.video).Perm rs := by
  induction rs with
  | nil => simp [rateProcess]
  | cons v rest ih =>
    simp only [rateProcess]
    cases h : rateClassify ids urls compiled v with
    | clean p => simpa [h] using ih.cons v
    | dropped reason m =>
      simp only [h, List.map_cons]
      exact List.perm_middle.trans (ih.cons v)

/-- C6: in both filtering stages (the fetch rule engine and the rate
exception/attribution loop), the accepted output and the rejected/dropped
output together contain every input record exactly once — as multisets,
accepted ∪ rejected = input, so nothing is lost, duplicated, or counted
twice. -/
theorem C6_partition_law (ce : List (String × List String)) (vs : List Video)
    (ids urls : List String) (compiled : List (String × String))
    (rs : List VideoRow) :
    ((fetchPartition ce vs).1 ++ (fetchPartition ce vs).2.map Prod.fst).Perm vs
    ∧ ((rateProcess ids urls compiled rs).1.map CleanRow.video
        ++ (rateProcess ids urls compiled rs).2.map DroppedRow.video).Perm rs :=
  ⟨fetchPartition_perm ce vs, rateProcess_perm ids urls compiled rs⟩

/-! ## C3 -/

/-- C3: for non-negative inputs the base score is exactly the weighted
`log1p` combination with weights 0.45/0.25/0.20/0.10, and the four weight
constants sum to 1. -/
theorem C3_base_score_formula (tv pv vc : ℤ) (tm : ℝ)
    (h1 : 0 ≤ tv) (h2 : 0 ≤ pv) (h3 : 0 ≤ vc) (h4 : 0 ≤ tm) :
    compute_base_score tv pv vc tm
      = 0.45 * log1p (tv : ℝ) + 0.25 * log1p (pv : ℝ)
        + 0.20 * log1p (vc : ℝ) + 0.10 * log1p tm
    ∧ W_TOTAL + W_PEAK + W_COUNT + W_MINUTES = 1.0 := by
  constructor
  · unfold compute_base_score
    rw [max_eq_right h1, max_eq_right h2, max_eq_right h3, max_eq_right h4]
    norm_num [W_TOTAL, W_PEAK, W_COUNT, W_MINUTES]
  · norm_num [W_TOTAL, W_PEAK, W_COUNT, W_MINUTES]

/-- Witness for C3 at (1, 2, 3, 4). -/
theorem C3_witness :
    compute_base_score 1 2 3 4
      = 0.45 * log1p ((1 : ℤ) : ℝ) + 0.25 * log1p ((2 : ℤ) : ℝ)
        + 0.20 * log1p ((3 : ℤ) : ℝ) + 0.10 * log1p 4
    ∧ W_TOTAL + W_PEAK + W_COUNT + W_MINUTES = 1.0 :=
  C3_base_score_formula 1 2 3 4 (by norm_num) (by norm_num) (by norm_num) (by norm_num)

/-! ## C9 -/

/-- Monotonicity of `log1p` on the non-negatives. -/
theorem log1p_le_log1p {x y : ℝ} (hx : 0 ≤ x) (hxy : x ≤ y) :
    log1p x ≤ log1p y := by
  unfold log1p
  exact Real.log_le_log (by linarith) (by linarith)

/-- The base score is monotone in all four arguments jointly (the internal
`max 0` clamps make this true without sign assumptions). -/
theorem compute_base_score_mono {tv tv' pv pv' vc vc' : ℤ} {tm tm' : ℝ}
    (h1 : tv ≤ tv') (h2 : pv ≤ pv') (h3 : vc ≤ vc') (h4 : tm ≤ tm') :
    compute_base_score tv pv vc tm ≤ compute_base_score tv' pv' vc' tm' := by
  unfold compute_base_score
  have cast_le : ∀ x y : ℤ, x ≤ y →
      ((max 0 x : ℤ) : ℝ) ≤ ((max 0 y : ℤ) : ℝ) := by
    intro x y h
    exact_mod_cast max_le_max le_rfl h
  have cast_nonneg : ∀ x : ℤ, (0 : ℝ) ≤ ((max 0 x : ℤ) : ℝ) := by
    intro x
    exact_mod_cast le_max_left 0 x
  have k1 := log1p_le_log1p (cast_nonneg tv) (cast_le tv tv' h1)
  have k2 := log1p_le_log1p (cast_nonneg pv) (cast_le pv pv' h2)
  have k3 := log1p_le_log1p (cast_nonneg vc) (cast_le vc vc' h3)
  have k4 := log1p_le_log1p (le_max_left 0 tm) (max_le_max le_rfl h4)
  have w1 : (0 : ℝ) ≤ W_TOTAL := by norm_num [W_TOTAL]
  have w2 : (0 : ℝ) ≤ W_PEAK := by norm_num [W_PEAK]
  have w3 : (0 : ℝ) ≤ W_COUNT := by norm_num [W_COUNT]
  have w4 : (0 : ℝ) ≤ W_MINUTES := by norm_num [W_MINUTES]
  exact add_le_add (add_le_add (add_le_add
    (mul_le_mul_of_nonneg_left k1 w1) (mul_le_mul_of_nonneg_left k2 w2))
    (mul_le_mul_of_nonneg_left k3 w3)) (mul_le_mul_of_nonneg_left k4 w4)

/-- C9: for non-negative inputs, strictly increasing any one of the four
metrics while holding the other three fixed never decreases the base
score. -/
theorem C9_base_score_monotone (tv tv' pv pv' vc vc' : ℤ) (tm tm' : ℝ)
    (htv : 0 ≤ tv) (htv' : 0 ≤ tv') (hpv : 0 ≤ pv) (hpv' : 0 ≤ pv')
    (hvc : 0 ≤ vc) (hvc' : 0 ≤ vc') (htm : 0 ≤ tm) (htm' : 0 ≤ tm') :
    (tv < tv' → compute_base_score tv pv vc tm ≤ compute_base_score tv' pv vc tm)
    ∧ (pv < pv' → compute_base_score tv pv vc tm ≤ compute_base_score tv pv' vc tm)
    ∧ (vc < vc' → compute_base_score tv pv vc tm ≤ compute_base_score tv pv vc' tm)
    ∧ (tm < tm' → compute_base_score tv pv vc tm ≤ compute_base_score tv pv vc tm') := by
  refine ⟨fun h => ?_, fun h => ?_, fun h => ?_, fun h => ?_⟩
  · exact compute_base_score_mono h.le le_rfl le_rfl le_rfl
  · exact compute_base_score_mono le_rfl h.le le_rfl le_rfl
  · exact compute_base_score_mono le_rfl le_rfl h.le le_rfl
  · exact compute_base_score_mono le_rfl le_rfl le_rfl h.le

/-- Witness for C9 at concrete inputs 0 < 1 in each coordinate. -/
theorem C9_witness :
    (compute_base_score 0 5 5 5 ≤ compute_base_score 1 5 5 5)
    ∧ (compute_base_score 5 0 5 5 ≤ compute_base_score 5 1 5 5)
    ∧ (compute_base_score 5 5 0 5 ≤ compute_base_score 5 5 1 5)
    ∧ (compute_base_score 5 5 5 0 ≤ compute_base_score 5 5 5 1) := by
  have h0 := C9_base_score_monotone 0 1 5 5 5 5 5 5
    (by norm_num) (by norm_num) (by norm_num) (by norm_num)
    (by norm_num) (by norm_num) (by norm_num) (by norm_num)
  have h1 := C9_base_score_monotone 5 5 0 1 5 5 5 5
    (by norm_num) (by norm_num) (by norm_num) (by norm_num)
    (by norm_num) (by norm_num) (by norm_num) (by norm_num)
  have h2 := C9_base_score_monotone 5 5 5 5 0 1 5 5
    (by norm_num) (by norm_num) (by norm_num) (by norm_num)
    (by norm_num) (by norm_num) (by norm_num) (by norm_num)
  have h3 := C9_base_score_monotone 5 5 5 5 5 5 0 1
    (by norm_num) (by norm_num) (by norm_num) (by norm_num)
    (by norm_num) (by norm_num) (by norm_num) (by norm_num)
  exact ⟨h0.1 (by norm_num), h1.2.1 (by norm_num), h2.2.2.1 (by norm_num),
    h3.2.2.2 (by norm_num)⟩

/-! ## C4 (corrected) -/

/-- Counterexample to C4 as stated: one attributed video with 0 views and
1 like gives a performer with `total_views = 0` and `total_likes = 1`; the
global prior is `p0 = 0` (no attributed views at all), yet
`like_rate_smooth = (1 + M·0)/(0 + M) = 1/50000 ≠ 0 = p0`. -/
theorem C4_counterexample :
    total_views_of (rateProcess [] [] (loadPerformers ["Ivan"]).2 [vAttr]).1 "Ivan" = 0
    ∧ like_rate_smooth
        (total_likes_of (rateProcess [] [] (loadPerformers ["Ivan"]).2 [vAttr]).1 "Ivan")
        (total_views_of (rateProcess [] [] (loadPerformers ["Ivan"]).2 [vAttr]).1 "Ivan")
        (p0 (global_likes (rateProcess [] [] (loadPerformers ["Ivan"]).2 [vAttr]).1)
            (global_views (rateProcess [] [] (loadPerformers ["Ivan"]).2 [vAttr]).1))
      ≠ p0 (global_likes (rateProcess [] [] (loadPerformers ["Ivan"]).2 [vAttr]).1)
           (global_views (rateProcess [] [] (loadPerformers ["Ivan"]).2 [vAttr]).1) := by
  have h1 : total_views_of (rateProcess [] [] (loadPerformers ["Ivan"]).2 [vAttr]).1 "Ivan"
      = 0 := by decide
  have h2 : total_likes_of (rateProcess [] [] (loadPerformers ["Ivan"]).2 [vAttr]).1 "Ivan"
      = 1 := by decide
  have h3 : global_likes (rateProcess [] [] (loadPerformers ["Ivan"]).2 [vAttr]).1 = 1 := by
    decide
  have h4 : global_views (rateProcess [] [] (loadPerformers ["Ivan"]).2 [vAttr]).1 = 0 := by
    decide
  refine ⟨h1, ?_⟩
  rw [h1, h2, h3, h4]
  have hp : p0 1 0 = 0 := by norm_num [p0]
  rw [hp]
  unfold like_rate_smooth SMOOTH_M_VIEWS
  norm_num

/-- C4 as amended: for a performer with `total_views = 0`,
`like_rate_smooth = p0 + total_likes / M`; in particular it equals the prior
`p0` exactly in the case `total_likes = 0`. -/
theorem C4_amended_smoothing_at_zero_views (tl : ℤ) (prior : ℚ) :
    like_rate_smooth tl 0 prior = prior + (tl : ℚ) / (SMOOTH_M_VIEWS : ℚ)
    ∧ like_rate_smooth 0 0 prior = prior := by
  constructor
  · unfold like_rate_smooth SMOOTH_M_VIEWS
    rw [if_pos (by norm_num)]
    push_cast
    ring
  · unfold like_rate_smooth SMOOTH_M_VIEWS
    rw [if_pos (by norm_num)]
    push_cast
    ring

/-! ## C5: ranking -/

/-- Inserting an element whose key equals `k` puts it in front of the other
key-`k` elements: the filtered view gains the new element at its head. -/
theorem filter_orderedInsert_key_eq {α : Type} (key : α → ℚ) (k : ℚ) (a : α)
    (l : List α) (ha : key a = k) :
    (List.orderedInsert (fun x y => key y ≤ key x) a l).filter
        (fun x => decide (key x = k))
      = a :: l.filter fun x => decide (key x = k) := by
  induction l with
  | nil => simp [List.orderedInsert, List.filter_cons, ha]
  | cons b bs ih =>
    by_cases hb : key b ≤ key a
    · have hoi : List.orderedInsert (fun x y => key y ≤ key x) a (b :: bs)
          = a :: b :: bs := by simp [List.orderedInsert, hb]
      rw [hoi, List.filter_cons]
      simp [ha]
    · have hbk : ¬(key b = k) := fun h => hb (ha ▸ le_of_eq h)
      have hoi : List.orderedInsert (fun x y => key y ≤ key x) a (b :: bs)
          = b :: List.orderedInsert (fun x y => key y ≤ key x) a bs := by
        simp [List.orderedInsert, hb]
      rw [hoi, List.filter_cons, List.filter_cons]
      simp [hbk, ih]

/-- Inserting an element whose key differs from `k` leaves the key-`k`
filtered view unchanged. -/
theorem filter_orderedInsert_key_ne {α : Type} (key : α → ℚ) (k : ℚ) (a : α)
    (l : List α) (ha : ¬(key a = k)) :
    (List.orderedInsert (fun x y => key y ≤ key x) a l).filter
        (fun x => decide (key x = k))
      = l.filter fun x => decide (key x = k) := by
  induction l with
  | nil => simp [List.orderedInsert, List.filter_cons, ha]
  | cons b bs ih =>
    by_cases hb : key b ≤ key a
    · have hoi : List.orderedInsert (fun x y => key y ≤ key x) a (b :: bs)
          = a :: b :: bs := by simp [List.orderedInsert, hb]
      rw [hoi, List.filter_cons]
      simp [ha]
    · have hoi : List.orderedInsert (fun x y => key y ≤ key x) a (b :: bs)
          = b :: List.orderedInsert (fun x y => key y ≤ key x) a bs := by
        simp [List.orderedInsert, hb]
      rw [hoi, List.filter_cons, List.filter_cons, ih]

/-- Stability of the descending insertion sort: the subsequence of elements
with any fixed key is exactly the input's subsequence with that key, in
input order. -/
theorem filter_insertionSort_key {α : Type} (key : α → ℚ) (k : ℚ) (l : List α) :
    (List.insertionSort (fun x y => key y ≤ key x) l).filter
        (fun x => decide (key x = k))
      = l.filter fun x => decide (key x = k) := by
  induction l with
  | nil => rfl
  | cons a as ih =>
    by_cases ha : key a = k
    · simp only [List.insertionSort, filter_orderedInsert_key_eq key k a _ ha, ih,
        List.filter_cons, decide_eq_true_eq, if_pos ha]
    · simp only [List.insertionSort, filter_orderedInsert_key_ne key k a _ ha, ih,
        List.filter_cons, decide_eq_true_eq, if_neg ha]

/-- The descending insertion sort is sorted for the key order. -/
theorem sorted_insertionSort_key {α : Type} (key : α → ℚ) (l : List α) :
    List.Sorted (fun x y => key y ≤ key x)
      (List.insertionSort (fun x y => key y ≤ key x) l) := by
  haveI t1 : IsTotal α fun x y => key y ≤ key x := ⟨fun a b => le_total (key b) (key a)⟩
  haveI t2 : IsTrans α fun x y => key y ≤ key x :=
    ⟨fun _ _ _ hab hbc => le_trans hbc hab⟩
  exact List.sorted_insertionSort _ l

/-- C5: the assigned ranks are exactly 1..N in order; the ranked rows are a
permutation of the input; the rows are in descending order of the active
sort key (`score_with_engagement` when the flag is on, else `score`); the
sort is stable (rows with equal keys keep their input order); and a row
with rank 1 has a maximal active sort key. -/
theorem C5_rank_validity (flag : Bool) (rows : List RatingRow) (hne : rows ≠ []) :
    ((rankRows flag rows).map Prod.snd = List.range' 1 rows.length)
    ∧ ((rankRows flag rows).map Prod.fst).Perm rows
    ∧ List.Sorted (fun a b => ratingSortKey flag b ≤ ratingSortKey flag a)
        ((rankRows flag rows).map Prod.fst)
    ∧ (∀ k : ℚ,
        ((rankRows flag rows).map Prod.fst).filter
            (fun r => decide (ratingSortKey flag r = k))
          = rows.filter fun r => decide (ratingSortKey flag r = k))
    ∧ (∀ p ∈ rankRows flag rows, p.2 = 1 →
        ∀ q ∈ rankRows flag rows, ratingSortKey flag q.1 ≤ ratingSortKey flag p.1) := by
  have hperm : (List.insertionSort
      (fun a b => ratingSortKey flag b ≤ ratingSortKey flag a) rows).Perm rows :=
    List.perm_insertionSort _ rows
  have hlen : (List.insertionSort
      (fun a b => ratingSortKey flag b ≤ ratingSortKey flag a) rows).length
      = rows.length := hperm.length_eq
  have hfst : (rankRows flag rows).map Prod.fst
      = List.insertionSort (fun a b => ratingSortKey flag b ≤ ratingSortKey flag a) rows := by
    simp only [rankRows]
    exact List.map_fst_zip _ _ (by rw [List.length_range'])
  have hsnd : (rankRows flag rows).map Prod.snd
      = List.range' 1 rows.length := by
    simp only [rankRows]
    rw [List.map_snd_zip _ _ (by rw [List.length_range']), hlen]
  refine ⟨hsnd, ?_, ?_, ?_, ?_⟩
  · rw [hfst]; exact hperm
  · rw [hfst]; exact sorted_insertionSort_key _ rows
  · intro k; rw [hfst]; exact filter_insertionSort_key _ k rows
  · intro p hp hp1 q hq
    have hsort := sorted_insertionSort_key (ratingSortKey flag) rows
    cases hs : List.insertionSort
        (fun a b => ratingSortKey flag b ≤ ratingSortKey flag a) rows with
    | nil =>
      rw [hs] at hperm
      exact absurd hperm.symm.eq_nil hne
    | cons a t =>
      have hrr : rankRows flag rows = (a, 1) :: t.zip (List.range' 2 t.length) := by
        simp only [rankRows, hs, List.length_cons, List.range'_succ]
        rfl
      rw [hrr] at hp hq
      have hpa : p = (a, 1) := by
        rcases List.mem_cons.mp hp with h1 | h1
        · exact h1
        · exfalso
          have h2 := (List.of_mem_zip h1).2
          rw [List.mem_range'_1] at h2
          omega
      have hqa : q.1 = a ∨ q.1 ∈ t := by
        rcases List.mem_cons.mp hq with h1 | h1
        · left; rw [h1]
        · exact Or.inr (List.of_mem_zip h1).1
      rw [hs] at hsort
      rcases hqa with h1 | h1
      · rw [hpa, h1]
      · rw [hpa]
        exact List.rel_of_sorted_cons hsort _ h1

/-- Witness for C5: two rows with scores 1 and 2 get ranks `[1, 2]` assigned
(after the descending sort puts the score-2 row first). -/
theorem C5_witness :
    (rankRows false [rrOne, rrTwo]).map Prod.snd = List.range' 1 2 :=
  (C5_rank_validity false [rrOne, rrTwo] (List.cons_ne_nil _ _)).1

/-! ## C7 (corrected) -/

/-- Counterexample to C7 as stated: `vExcluded` is in the exclusion
identifier set, yet the whole pipeline (fetch stage first, as run_pipeline.py
orders the stages) rejects it in the rule engine with reason
`"before_2022_02_24"` — a rule predicate did run on it, and its only audit
record carries a reason other than `"exception"`. -/
theorem C7_counterexample :
    vExcluded.video_id ∈ ["dQw4w9WgXcQ"]
    ∧ pipeline [] ["dQw4w9WgXcQ"] [] [] [vExcluded]
        = ([], [], [(vExcluded, "before_2022_02_24")])
    ∧ "before_2022_02_24" ≠ "exception" :=
  ⟨by decide, by decide, by decide⟩

/-- C7 as amended: within the rating stage the exception filter is the first
gate — a record whose id is in the exclusion identifier set or whose exact
url is in the exclusion locator set is dropped with reason exactly
`"exception"`, before and independent of any attributor matching (the result
is the same for every alias table), and it carries no other reason code in
that stage.  (The rule engine, however, belongs to the fetch stage, which
runs before the rating stage.) -/
theorem C7_amended_exception_first_gate_of_rate (ids urls : List String)
    (v : VideoRow) (h : v.video_id ∈ ids ∨ v.url ∈ urls) :
    ∀ (compiled : List (String × String)) (rest : List VideoRow),
      rateClassify ids urls compiled v = .dropped "exception" none
      ∧ rateProcess ids urls compiled (v :: rest)
          = ((rateProcess ids urls compiled rest).1,
             ⟨v, "exception", none⟩ :: (rateProcess ids urls compiled rest).2) := by
  intro compiled rest
  have hc := rateClassify_excluded ids urls compiled v h
  exact ⟨hc, rateProcess_cons_dropped ids urls compiled v rest _ _ hc⟩

/-- Witness for C7's amended statement: the excluded record, fed directly to
the rating stage, is dropped with reason `"exception"` even though its title
matches the performer `Ivan`. -/
theorem C7_amended_witness :
    rateProcess ["aaaaaaaaaaa"] [] (loadPerformers ["Ivan"]).2 [vAttr]
      = ([], [⟨vAttr, "exception", none⟩]) := by
  have h := (C7_amended_exception_first_gate_of_rate ["aaaaaaaaaaa"] [] vAttr
    (by decide) (loadPerformers ["Ivan"]).2 []).2
  simpa using h

/-! ## C8 -/

/-- C8: with the alias table compiled from the single performer line
`"Ivan"`, a title containing the substring `Ivanenko` yields no match (the
alias occurrence is glued to word characters), while titles containing
`Ivan speaks` do match — case-insensitively and on the whitespace-normalized
title. -/
theorem C8_alias_word_boundaries :
    matchPerformersInTitle "Ivanenko performs tonight" (loadPerformers ["Ivan"]).2 = []
    ∧ matchPerformersInTitle "Ivan speaks tonight" (loadPerformers ["Ivan"]).2 = ["Ivan"]
    ∧ matchPerformersInTitle "IVAN   speaks" (loadPerformers ["Ivan"]).2 = ["Ivan"] :=
  ⟨by decide, by decide, by decide⟩

/-! ## C10 -/

/-- C10: a CSV row whose `video_id` and `id` columns are empty (or absent)
and from whose url no 11-character id can be extracted is skipped by
`read_videos_csv` entirely: it yields no `VideoRow`, so the subsequent
pipeline's clean and dropped outputs are those of the remaining rows — the
row receives no reason code anywhere. -/
theorem C10_unidentifiable_row_omitted (r : List (String × String))
    (rows : List (List (String × String)))
    (h1 : rowGet r "video_id" = none ∨ rowGet r "video_id" = some "")
    (h2 : rowGet r "id" = none ∨ rowGet r "id" = some "")
    (h3 : extract_video_id
      (trimStr (firstTruthy [rowGet r "url", rowGet r "video_url"])) = none) :
    readRow r = none
    ∧ read_videos_csv (r :: rows) = read_videos_csv rows
    ∧ ∀ (ids urls : List String) (compiled : List (String × String)),
        rateProcess ids urls compiled (read_videos_csv (r :: rows))
          = rateProcess ids urls compiled (read_videos_csv rows) := by
  have hvid0 : firstTruthy [rowGet r "video_id", rowGet r "id"] = "" := by
    rcases h1 with h1 | h1 <;> rcases h2 with h2 | h2 <;>
      simp [firstTruthy, h1, h2]
  have hnone : readRow r = none := by
    unfold readRow
    rw [hvid0]
    have htrim : trimStr "" = "" := rfl
    rw [htrim]
    simp only [if_pos rfl, h3]
    rfl
  refine ⟨hnone, ?_, ?_⟩
  · simp [read_videos_csv, hnone]
  · intro ids urls compiled
    simp [read_videos_csv, hnone]

/-- Witness for C10: a row with only a non-video url and a title is dropped
by the loader and invisible to the pipeline. -/
theorem C10_witness :
    readRow rowNoId = none
    ∧ read_videos_csv [rowNoId] = read_videos_csv [] := by
  have h := C10_unidentifiable_row_omitted rowNoId []
    (by decide) (by decide) (by decide)
  exact ⟨h.1, h.2.1⟩

end StandupHub
